import Mathlib

/-!
Verification development for the real-time presence/messaging client
(frontend `usePresence` hook).  The definitions below are a shallow
embedding of the hook's message handling, channel-log merge rules,
reconnect backoff, and outbound command API, translated directly from
the source.  Timestamps are modelled as the integer value produced by
parsing the ISO string (`new Date(t).getTime()`); the JavaScript
`Array.prototype.sort` (a stable sort with respect to the comparator)
is modelled by Mathlib's stable insertion sort over the comparator's
ordering.
-/

namespace Torb

/-- Runtime value of a JSON field that may be absent, null, or a string
(JavaScript distinguishes `undefined`, `null` and strings under `===`
and truthiness). -/
inductive JsVal where
  | undef
  | jsNull
  | str (s : String)
deriving DecidableEq, Repr

/-- JavaScript truthiness of such a value: only a non-empty string is truthy. -/
def JsVal.truthy : JsVal → Bool
  | .str s => !(s == "")
  | _ => false

/-- Strict equality `v === cur` where `cur : string | null`
(`currentUsernameRef.current`).  `undefined === null` is `false`;
`null === null` is `true`; a string compares only with a string. -/
def jsEqOpt : JsVal → Option String → Bool
  | .jsNull, none => true
  | .str s, some t => s == t
  | _, _ => false

/-- A chat message payload (`ChatMessagePayload`), with the runtime-only
fields `from_user` (present on `dm` frames) and `target` (present on
`dm`/`dm_receipt` frames) kept as JSON values.  `ts` is the parsed
timestamp. -/
structure Payload where
  id : Nat
  sender : String
  content : String
  ts : Int
  from_user : JsVal
  target : JsVal
deriving DecidableEq, Repr

/-- The timestamp ordering used by every log sort:
`(a, b) => new Date(a.timestamp).getTime() - new Date(b.timestamp).getTime()`. -/
def tsLe (a b : Payload) : Prop := a.ts ≤ b.ts

instance : DecidableRel tsLe := fun a b => inferInstanceAs (Decidable (a.ts ≤ b.ts))

instance : IsTotal Payload tsLe := ⟨fun a b => Int.le_total a.ts b.ts⟩

instance : IsTrans Payload tsLe := ⟨fun _ _ _ hab hbc => Int.le_trans hab hbc⟩

/-- Models `log.sort(byTimestamp)`: a stable sort by ascending timestamp. -/
def sortByTs (l : List Payload) : List Payload := l.insertionSort tsLe

/-- Live append (the `chat` and `dm`/`dm_receipt` merge): if a message with
the same id is already present the update is a no-op, otherwise the payload
is appended and the log re-sorted by timestamp. -/
def liveAppend (log : List Payload) (m : Payload) : List Payload :=
  if log.any (fun x => x.id == m.id) then log
  else sortByTs (log ++ [m])

/-- One `Map.set` step of
`new Map(allMessages.map(msg => [msg.id, msg]))`: an existing key keeps its
position but takes the later value; a new key is appended. -/
def mapInsert (acc : List Payload) (m : Payload) : List Payload :=
  if acc.any (fun x => x.id == m.id) then
    acc.map (fun x => if x.id == m.id then m else x)
  else acc ++ [m]

/-- Models `Array.from(new Map(l.map(msg => [msg.id, msg])).values())`. -/
def dedupById (l : List Payload) : List Payload := l.foldl mapInsert []

/-- Bulk history merge (`loadOlderGlobalMessages` / `loadOlderDirectMessages`):
concatenate the older batch in front, dedup by id via Map semantics, and sort
the whole log by timestamp. -/
def loadOlderMerge (older log : List Payload) : List Payload :=
  sortByTs (dedupById (older ++ log))

/-- The ids occurring in a log, in order. -/
def idsOf (l : List Payload) : List Nat := l.map Payload.id

/-- A channel-log mutation: either a live append of one message or a bulk
history merge of a batch. -/
inductive ChanOp where
  | live (m : Payload)
  | bulk (batch : List Payload)
deriving DecidableEq, Repr

/-- Apply one mutation to a channel log. -/
def applyChanOp (log : List Payload) : ChanOp → List Payload
  | .live m => liveAppend log m
  | .bulk b => loadOlderMerge b log

/-- Run a sequence of mutations starting from the empty log (the initial
state of the global channel and of every per-peer channel). -/
def runChanOps (ops : List ChanOp) : List Payload := ops.foldl applyChanOp []

/-- A mutation introduces id `i` when it carries a message with that id. -/
def opIntro : ChanOp → Nat → Prop
  | .live m, i => m.id = i
  | .bulk b, i => i ∈ idsOf b

instance (op : ChanOp) (i : Nat) : Decidable (opIntro op i) :=
  match op with
  | .live m => decidable_of_iff (m.id = i) Iff.rfl
  | .bulk b => decidable_of_iff (i ∈ idsOf b) Iff.rfl

/-- The channel-log invariant: ids are pairwise distinct and the log is
non-decreasing in timestamp. -/
def goodLog (l : List Payload) : Prop :=
  (idsOf l).Nodup ∧ l.Pairwise tsLe

instance (l : List Payload) : Decidable (goodLog l) :=
  inferInstanceAs (Decidable (_ ∧ _))

/-- A presence roster entry (`UserPresence`). -/
structure UserPresence where
  username : String
  track_id : Option String
  online : Bool
deriving DecidableEq, Repr

/-- The ordering induced by the roster comparator
(`-1` when `a.online && !b.online`, `1` when `!a.online && b.online`,
otherwise `a.username.localeCompare(b.username)`): `cmp(a,b) ≤ 0`.
`localeCompare` is modelled as lexicographic string order. -/
def rosterLe (a b : UserPresence) : Prop :=
  (a.online = true ∧ b.online = false) ∨ (a.online = b.online ∧ a.username ≤ b.username)

instance : DecidableRel rosterLe :=
  fun _ _ => inferInstanceAs (Decidable (_ ∨ _))

instance : IsTotal UserPresence rosterLe where
  total a b := by
    unfold rosterLe
    rcases ha : a.online <;> rcases hb : b.online <;> simp [ha, hb] <;>
      exact le_total _ _

instance : IsTrans UserPresence rosterLe where
  trans a b c hab hbc := by
    unfold rosterLe at hab hbc ⊢
    rcases ha : a.online <;> rcases hb : b.online <;> rcases hc : c.online <;>
      simp_all <;> exact le_trans hab hbc

/-- Models `message.users.sort(presenceComparator)`: a stable sort with respect to
the comparator's ordering. -/
def rosterSort (users : List UserPresence) : List UserPresence :=
  users.insertionSort rosterLe

/-- Models `{...obj, [k]: v}` on a string-keyed object: an existing key keeps its
position and takes the new value, a fresh key is appended. -/
def upsert {β : Type} (l : List (String × β)) (k : String) (v : β) : List (String × β) :=
  if l.any (fun p => p.1 == k) then
    l.map (fun p => if p.1 == k then (k, v) else p)
  else l ++ [(k, v)]

/-- Keyed lookup with a default (`obj[k] || dflt`). -/
def lookupD {β : Type} (l : List (String × β)) (k : String) (d : β) : β :=
  match l.find? (fun p => p.1 == k) with
  | some p => p.2
  | none => d

/-- Per-peer direct-message logs (`DirectMessagesState`). -/
abbrev DmMap := List (String × List Payload)

/-- Per-peer unread counts (`UnreadCountsState`); this models both the
durable ledger entry and its in-memory mirror, which the hook keeps in
sync via the count returned by each ledger operation. -/
abbrev UnreadMap := List (String × Nat)

/-- Models `prevDms[user] || []`. -/
def dmGet (dms : DmMap) (k : String) : List Payload := lookupD dms k []

/-- Models `{...prevDms, [user]: log}`. -/
def dmSet (dms : DmMap) (k : String) (v : List Payload) : DmMap := upsert dms k v

/-- Current unread count for a peer, `0` if absent. -/
def unreadGet (m : UnreadMap) (k : String) : Nat := lookupD m k 0

/-- Write a peer's unread count. -/
def unreadSet (m : UnreadMap) (k : String) (v : Nat) : UnreadMap := upsert m k v

/-- The hook's channel state: roster, global chat log, per-peer DM logs,
and the unread counts. -/
structure ClientState where
  onlineUsers : List UserPresence
  globalChatMessages : List Payload
  directMessages : DmMap
  unreadCounts : UnreadMap
deriving DecidableEq, Repr

/-- The initial state: everything empty. -/
def emptyState : ClientState := ⟨[], [], [], []⟩

/-- The browser-environment inputs the handler reads:
`currentUsernameRef.current`, `document.hidden`,
`window.location.pathname`, and `Notification.permission === 'granted'`. -/
structure Env where
  currentUsername : Option String
  documentHidden : Bool
  currentPath : String
  notifGranted : Bool
deriving DecidableEq, Repr

/-- Leading-match of one character list against another. -/
def chPre : List Char → List Char → Bool
  | [], _ => true
  | _ :: _, [] => false
  | a :: as, b :: bs => a == b && chPre as bs

/-- Whether `sub` occurs as a contiguous run inside `hay`. -/
def chSub (sub : List Char) : List Char → Bool
  | [] => sub.isEmpty
  | b :: bs => chPre sub (b :: bs) || chSub sub bs

/-- Models `hay.includes(sub)` on strings. -/
def strIncludes (hay sub : String) : Bool := chSub sub.toList hay.toList

/-- The active-chat heuristic:
`window.location.pathname.includes('/chat/dm/' + username) && !document.hidden`. -/
def isActiveChat (env : Env) (u : String) : Bool :=
  strIncludes env.currentPath ("/chat/dm/" ++ u) && !env.documentHidden

/-- Observable side effects of processing one frame. -/
inductive Effect where
  | errLogged (s : String)
  | warnLogged (s : String)
  | ledgerIncrement (peer : String) (newCount : Nat)
  | ledgerClear (peer : String)
  | notifCall (sender content : String)
  | notifShown (sender content : String)
deriving DecidableEq, Repr

/-- Whether an effect touches the unread ledger. -/
def Effect.isLedger : Effect → Bool
  | .ledgerIncrement _ _ => true
  | .ledgerClear _ => true
  | _ => false

/-- Whether an effect is a notification call or display. -/
def Effect.isNotif : Effect → Bool
  | .notifCall _ _ => true
  | .notifShown _ _ => true
  | _ => false

/-- Models `showNotification(sender, content)`: displays a system notification only
when permission is granted and the document is hidden. -/
def showNotification (env : Env) (sender content : String) : List Effect :=
  if env.notifGranted && env.documentHidden then [.notifShown sender content]
  else []

/-- The error text logged when a dm/dm_receipt has no usable other-user key. -/
def dmOtherUserErrMsg : String := "DM or receipt does not have a valid other user"

/-- The error text logged by the catch-all around frame processing. -/
def wsProcessErrMsg : String := "Error processing message from WebSocket"

/-- An inbound frame after `JSON.parse`: either unparseable (`malformed`,
the parse threw), one of the recognized tagged variants, or a frame whose
`type` discriminator matches no branch (`unknown`). -/
inductive Frame where
  | malformed
  | presence (users : List UserPresence)
  | chat (p : Payload)
  | dm (p : Payload)
  | dm_receipt (p : Payload)
  | errFrame (msg : String)
  | unknown
deriving DecidableEq, Repr

/-- Modelled from the spec: the ledger module `../lib/indexedDb`
(`incrementUnreadCount`, `clearUnreadCount`, …) is imported by the hook but
its source is not under src/.  Per §4.4 of the design, `increment(peer)`
atomically writes count+1 and returns the new value. -/
def ledgerIncr (m : UnreadMap) (k : String) : UnreadMap × Nat :=
  let n := unreadGet m k + 1
  (unreadSet m k n, n)

/-- The `onmessage` handler: parse, dispatch on the `type` discriminator,
apply the matching merge, and perform the unread/notification policy for
inbound dm frames.  The surrounding try/catch makes processing total: a
parse failure is logged and the frame dropped. -/
def handleFrame (env : Env) (st : ClientState) (f : Frame) : ClientState × List Effect :=
  match f with
  | .malformed => (st, [.errLogged wsProcessErrMsg])
  | .presence users => ({ st with onlineUsers := rosterSort users }, [])
  | .chat p =>
      ({ st with globalChatMessages := liveAppend st.globalChatMessages p }, [])
  | .dm p =>
      match p.from_user with
      | .str s =>
          if s == "" then (st, [.errLogged dmOtherUserErrMsg])
          else
            let st1 := { st with
              directMessages := dmSet st.directMessages s (liveAppend (dmGet st.directMessages s) p) }
            if jsEqOpt p.target env.currentUsername then
              if env.documentHidden || !(isActiveChat env s) then
                let r := ledgerIncr st1.unreadCounts s
                ({ st1 with unreadCounts := r.1 },
                 [.ledgerIncrement s r.2, .notifCall s p.content] ++ showNotification env s p.content)
              else
                ({ st1 with unreadCounts := unreadSet st1.unreadCounts s 0 }, [.ledgerClear s])
            else (st1, [])
      | _ => (st, [.errLogged dmOtherUserErrMsg])
  | .dm_receipt p =>
      match p.target with
      | .str s =>
          if s == "" then (st, [.errLogged dmOtherUserErrMsg])
          else
            ({ st with
               directMessages := dmSet st.directMessages s (liveAppend (dmGet st.directMessages s) p) }, [])
      | _ => (st, [.errLogged dmOtherUserErrMsg])
  | .errFrame m => (st, [.errLogged m])
  | .unknown => (st, [])

/-- Models `loadOlderGlobalMessages(olderMessages)`. -/
def loadOlderGlobalMessages (older : List Payload) (st : ClientState) : ClientState :=
  { st with globalChatMessages := loadOlderMerge older st.globalChatMessages }

/-- Models `loadOlderDirectMessages(username, olderMessages)`. -/
def loadOlderDirectMessages (username : String) (older : List Payload) (st : ClientState) : ClientState :=
  { st with
    directMessages :=
      dmSet st.directMessages username (loadOlderMerge older (dmGet st.directMessages username)) }

/-- WebSocket ready states. -/
inductive ReadyState where
  | CONNECTING
  | OPEN
  | CLOSING
  | CLOSED
deriving DecidableEq, Repr

/-- The observable pieces of a socket the connection manager owns: its ready
state and whether its `onclose` handler is still attached. -/
structure Socket where
  readyState : ReadyState
  oncloseAttached : Bool
deriving DecidableEq, Repr

/-- The connection manager's state: `socketRef` and `reconnectAttemptsRef`. -/
structure ConnMgr where
  socket : Option Socket
  reconnectAttempts : Nat
deriving DecidableEq, Repr

/-- Observable actions of `connect()` / the effect cleanup.  `closeCalled b`
records that `.close()` was invoked on an existing socket whose `onclose`
handler was still attached iff `b`. -/
inductive ConnEffect where
  | closeCalled (oncloseStillAttached : Bool)
  | newSocketCreated
deriving DecidableEq, Repr

/-- Models `connect()`: no-op when the current socket is OPEN; otherwise any
existing socket is closed (its `onclose` handler is not touched) and a new
socket is created.  The attempt counter is unchanged (it resets only in
`onopen`). -/
def connect (m : ConnMgr) : ConnMgr × List ConnEffect :=
  match m.socket with
  | some s =>
      if s.readyState = .OPEN then (m, [])
      else (⟨some ⟨.CONNECTING, true⟩, m.reconnectAttempts⟩,
            [.closeCalled s.oncloseAttached, .newSocketCreated])
  | none => (⟨some ⟨.CONNECTING, true⟩, m.reconnectAttempts⟩, [.newSocketCreated])

/-- The `useEffect` cleanup: sets `onclose = null` before `.close()`, drops
the socket reference, and resets the attempt counter. -/
def effectCleanup (m : ConnMgr) : ConnMgr × List ConnEffect :=
  match m.socket with
  | some _ => (⟨none, 0⟩, [.closeCalled false])
  | none => (⟨none, 0⟩, [])

/-- Everything the `onclose` handler does for one close event. -/
structure CloseResult where
  isConnected : Bool
  onlineUsers : List UserPresence
  attempts : Nat
  scheduledDelay : Option Nat
  wontRetryLogged : Bool
deriving DecidableEq, Repr

/-- The `onclose` handler: connectivity flag cleared and roster emptied;
codes 1008/1011 log "Won't attempt to reconnect" and schedule nothing;
otherwise, while fewer than `maxReconnectAttempts` (10) attempts have been
made, the counter is incremented and a reconnect is scheduled after
`min(1000 * 2^(attempts-1), 30000)` ms; once the counter has reached 10,
nothing further is scheduled. -/
def onCloseStep (attempts : Nat) (code : Nat) : CloseResult :=
  if code = 1008 ∨ code = 1011 then
    ⟨false, [], attempts, none, true⟩
  else if attempts < 10 then
    ⟨false, [], attempts + 1, some (min (1000 * 2 ^ attempts) 30000), false⟩
  else
    ⟨false, [], attempts, none, false⟩

/-- The attempt counter after `n` consecutive close events with the same
code, starting from a fresh counter of 0. -/
def attemptsAfterCloses (code : Nat) : Nat → Nat
  | 0 => 0
  | n + 1 => (onCloseStep (attemptsAfterCloses code n) code).attempts

/-- The delay scheduled by the `n`-th consecutive close event (1-indexed). -/
def nthCloseDelay (code : Nat) (n : Nat) : Option Nat :=
  (onCloseStep (attemptsAfterCloses code (n - 1)) code).scheduledDelay

/-- Frames the client writes to the socket. -/
inductive OutFrame where
  | chatOut (content : String)
  | dmOut (toUser content : String)
deriving DecidableEq, Repr

/-- How a send call returns: each constructor is one of the source's four
control paths (console.error "not connected", console.error "username is
not set", console.warn self-DM, or an actual `socket.send`).  The call
always returns normally — nothing is thrown. -/
inductive SendResult where
  | notConnectedErr
  | noIdentityErr
  | selfDMWarned
  | sent
deriving DecidableEq, Repr

/-- The spec's `InvalidTarget` failure class covers the unset-identity and
self-DM control paths. -/
def SendResult.isInvalidTarget : SendResult → Bool
  | .noIdentityErr => true
  | .selfDMWarned => true
  | _ => false

/-- Models `sendDirectMessage(recipient, content)`: requires an OPEN socket, then a
truthy current username, then a recipient different from the current user;
only then is a `dm` frame written. -/
def sendDirectMessage (sockOpen : Bool) (cur : Option String)
    (recipient content : String) : SendResult × List OutFrame :=
  if sockOpen then
    match cur with
    | none => (.noIdentityErr, [])
    | some u =>
        if u == "" then (.noIdentityErr, [])
        else if recipient == u then (.selfDMWarned, [])
        else (.sent, [.dmOut recipient content])
  else (.notConnectedErr, [])

/-- Models `sendGlobalChatMessage(content)`. -/
def sendGlobalChatMessage (sockOpen : Bool) (content : String) : SendResult × List OutFrame :=
  if sockOpen then (.sent, [.chatOut content])
  else (.notConnectedErr, [])

theorem sortByTs_perm (l : List Payload) : (sortByTs l).Perm l :=
  List.perm_insertionSort _ _

theorem sortByTs_pairwise (l : List Payload) : (sortByTs l).Pairwise tsLe :=
  List.sorted_insertionSort _ _

theorem idsOf_append (l₁ l₂ : List Payload) : idsOf (l₁ ++ l₂) = idsOf l₁ ++ idsOf l₂ := by
  simp [idsOf]

theorem idsOf_perm {l₁ l₂ : List Payload} (h : l₁.Perm l₂) : (idsOf l₁).Perm (idsOf l₂) :=
  h.map _

theorem any_id_iff (l : List Payload) (i : Nat) :
    (l.any (fun x => x.id == i) = true) ↔ i ∈ idsOf l := by
  simp only [idsOf, List.any_eq_true, List.mem_map, beq_iff_eq]

theorem liveAppend_ids_nodup {l : List Payload} (m : Payload) (h : (idsOf l).Nodup) :
    (idsOf (liveAppend l m)).Nodup := by
  unfold liveAppend
  split
  · exact h
  · next hany =>
    rw [(idsOf_perm (sortByTs_perm (l ++ [m]))).nodup_iff, idsOf_append]
    have hnotin : m.id ∉ idsOf l := by
      rw [← any_id_iff]; simpa using hany
    simp only [idsOf, List.nodup_append, List.map_cons, List.map_nil]
    refine ⟨h, by simp, ?_⟩
    intro a ha
    simp only [List.mem_singleton]
    intro hb
    subst hb
    exact hnotin ha

theorem liveAppend_mem_ids {l : List Payload} {m : Payload} {i : Nat} :
    i ∈ idsOf (liveAppend l m) ↔ i ∈ idsOf l ∨ i = m.id := by
  unfold liveAppend
  split
  · next hany =>
    have hm : m.id ∈ idsOf l := (any_id_iff _ _).mp hany
    constructor
    · exact Or.inl
    · rintro (hi | rfl)
      · exact hi
      · exact hm
  · rw [(idsOf_perm (sortByTs_perm _)).mem_iff, idsOf_append]
    simp [idsOf]

theorem liveAppend_pairwise {l : List Payload} (m : Payload) (h : l.Pairwise tsLe) :
    (liveAppend l m).Pairwise tsLe := by
  unfold liveAppend
  split
  · exact h
  · exact sortByTs_pairwise _

theorem mapInsert_ids (acc : List Payload) (m : Payload) :
    idsOf (mapInsert acc m)
      = if m.id ∈ idsOf acc then idsOf acc else idsOf acc ++ [m.id] := by
  unfold mapInsert
  split
  · next hany =>
    have hm : m.id ∈ idsOf acc := (any_id_iff _ _).mp hany
    rw [if_pos hm]
    simp only [idsOf, List.map_map]
    refine List.map_congr_left ?_
    intro x _
    by_cases hxi : x.id = m.id
    · simp [Function.comp, hxi]
    · simp [Function.comp, hxi]
  · next hany =>
    have hm : m.id ∉ idsOf acc := by rw [← any_id_iff]; simpa using hany
    rw [if_neg hm, idsOf_append]
    simp [idsOf]

theorem foldl_mapInsert_nodup :
    ∀ (l acc : List Payload), (idsOf acc).Nodup → (idsOf (l.foldl mapInsert acc)).Nodup
  | [], _, h => h
  | m :: l, acc, h => by
    rw [List.foldl_cons]
    apply foldl_mapInsert_nodup l
    rw [mapInsert_ids]
    split
    · exact h
    · next hnot => simp [List.nodup_append, h, hnot]

theorem foldl_mapInsert_mem :
    ∀ (l acc : List Payload) (i : Nat),
      i ∈ idsOf (l.foldl mapInsert acc) ↔ i ∈ idsOf acc ∨ i ∈ idsOf l
  | [], acc, i => by simp [idsOf]
  | m :: l, acc, i => by
    rw [List.foldl_cons, foldl_mapInsert_mem l, mapInsert_ids]
    have hcons : idsOf (m :: l) = m.id :: idsOf l := rfl
    split
    · next hm =>
      have himp : i = m.id → i ∈ idsOf acc := fun h => h ▸ hm
      rw [hcons]
      simp only [List.mem_cons]
      tauto
    · rw [hcons]
      simp only [List.mem_append, List.mem_singleton, List.mem_cons]
      tauto

theorem dedupById_nodup (l : List Payload) : (idsOf (dedupById l)).Nodup :=
  foldl_mapInsert_nodup l [] List.nodup_nil

theorem dedupById_mem (l : List Payload) (i : Nat) :
    i ∈ idsOf (dedupById l) ↔ i ∈ idsOf l := by
  rw [dedupById, foldl_mapInsert_mem]
  simp [idsOf]

theorem loadOlderMerge_nodup (older log : List Payload) :
    (idsOf (loadOlderMerge older log)).Nodup := by
  unfold loadOlderMerge
  rw [(idsOf_perm (sortByTs_perm _)).nodup_iff]
  exact dedupById_nodup _

theorem loadOlderMerge_mem (older log : List Payload) (i : Nat) :
    i ∈ idsOf (loadOlderMerge older log) ↔ i ∈ idsOf older ∨ i ∈ idsOf log := by
  unfold loadOlderMerge
  rw [(idsOf_perm (sortByTs_perm _)).mem_iff, dedupById_mem, idsOf_append, List.mem_append]

theorem applyChanOp_good {log : List Payload} (op : ChanOp) (h : goodLog log) :
    goodLog (applyChanOp log op) := by
  cases op with
  | live m => exact ⟨liveAppend_ids_nodup m h.1, liveAppend_pairwise m h.2⟩
  | bulk b => exact ⟨loadOlderMerge_nodup b log, sortByTs_pairwise _⟩

theorem applyChanOp_mem {log : List Payload} (op : ChanOp) (i : Nat)
    (h : i ∈ idsOf log ∨ opIntro op i) : i ∈ idsOf (applyChanOp log op) := by
  cases op with
  | live m =>
    rw [applyChanOp, liveAppend_mem_ids]
    rcases h with h | h
    · exact Or.inl h
    · exact Or.inr h.symm
  | bulk b =>
    rw [applyChanOp, loadOlderMerge_mem]
    rcases h with h | h
    · exact Or.inr h
    · exact Or.inl h

theorem foldl_applyChanOp_good :
    ∀ (ops : List ChanOp) (log : List Payload), goodLog log →
      goodLog (ops.foldl applyChanOp log)
  | [], _, h => h
  | op :: ops, log, h => by
    rw [List.foldl_cons]
    exact foldl_applyChanOp_good ops _ (applyChanOp_good op h)

theorem foldl_applyChanOp_mem :
    ∀ (ops : List ChanOp) (log : List Payload) (i : Nat),
      (i ∈ idsOf log ∨ ∃ op ∈ ops, opIntro op i) →
      i ∈ idsOf (ops.foldl applyChanOp log)
  | [], log, i, h => by
    rcases h with h | ⟨op, hop, _⟩
    · exact h
    · exact absurd hop (List.not_mem_nil op)
  | op :: ops, log, i, h => by
    rw [List.foldl_cons]
    apply foldl_applyChanOp_mem ops _ i
    rcases h with h | ⟨op', hop', hio'⟩
    · exact Or.inl (applyChanOp_mem op i (Or.inl h))
    · rcases List.mem_cons.mp hop' with rfl | hop'
      · exact Or.inl (applyChanOp_mem op' i (Or.inr hio'))
      · exact Or.inr ⟨op', hop', hio'⟩

theorem countP_id_eq_one {l : List Payload} {i : Nat}
    (hn : (idsOf l).Nodup) (hm : i ∈ idsOf l) :
    l.countP (fun x => x.id == i) = 1 := by
  have h1 : (idsOf l).count i = l.countP (fun x => x.id == i) := by
    rw [List.count_eq_countP, idsOf, List.countP_map]
    rfl
  have hle := List.nodup_iff_count_le_one.mp hn i
  have hpos : 0 < (idsOf l).count i := List.count_pos_iff.mpr hm
  omega

/-- C1: after any interleaving of live appends and bulk history merges
(starting from the empty log every channel starts with), the channel log
has pairwise-distinct ids and is non-decreasing in timestamp, and any id
carried by some operation in the sequence — via either path, any number of
times — occurs in exactly one entry of the final log. -/
theorem chanLog_nodup_sorted (ops : List ChanOp) :
    goodLog (runChanOps ops) ∧
    ∀ i : Nat, (∃ op ∈ ops, opIntro op i) →
      (runChanOps ops).countP (fun x => x.id == i) = 1 := by
  have hg : goodLog (runChanOps ops) :=
    foldl_applyChanOp_good ops [] ⟨List.nodup_nil, List.Pairwise.nil⟩
  exact ⟨hg, fun i hi =>
    countP_id_eq_one hg.1 (foldl_applyChanOp_mem ops [] i (Or.inr hi))⟩

/-- Witness for C1: a concrete sequence applying id 1 via live append, a
bulk merge, and a repeated live append still leaves exactly one entry with
id 1 and a well-formed log. -/
theorem chanLog_nodup_sorted_witness :
    (∃ op ∈ [ChanOp.live ⟨1, "alice", "hi", 5, .undef, .undef⟩,
             ChanOp.bulk [⟨1, "alice", "hi", 5, .undef, .undef⟩,
                          ⟨2, "bob", "yo", 3, .undef, .undef⟩],
             ChanOp.live ⟨1, "alice", "hi", 5, .undef, .undef⟩], opIntro op 1) ∧
    goodLog (runChanOps
      [ChanOp.live ⟨1, "alice", "hi", 5, .undef, .undef⟩,
       ChanOp.bulk [⟨1, "alice", "hi", 5, .undef, .undef⟩,
                    ⟨2, "bob", "yo", 3, .undef, .undef⟩],
       ChanOp.live ⟨1, "alice", "hi", 5, .undef, .undef⟩]) ∧
    (runChanOps
      [ChanOp.live ⟨1, "alice", "hi", 5, .undef, .undef⟩,
       ChanOp.bulk [⟨1, "alice", "hi", 5, .undef, .undef⟩,
                    ⟨2, "bob", "yo", 3, .undef, .undef⟩],
       ChanOp.live ⟨1, "alice", "hi", 5, .undef, .undef⟩]).countP
        (fun x => x.id == 1) = 1 :=
  ⟨by decide, (chanLog_nodup_sorted _).1, (chanLog_nodup_sorted _).2 1 (by decide)⟩

/-- C8: an inbound presence frame replaces the roster wholesale with the
snapshot's user list sorted online-first and then lexicographically by
username (no other state or effect); the result is a permutation of the
snapshot, so entries of the previous roster that are absent from the
snapshot do not survive. -/
theorem presence_wholesale_replace (env : Env) (st : ClientState)
    (users : List UserPresence) :
    handleFrame env st (.presence users)
      = ({ st with onlineUsers := rosterSort users }, []) ∧
    (rosterSort users).Perm users ∧
    (rosterSort users).Pairwise rosterLe :=
  ⟨rfl, List.perm_insertionSort _ _, List.sorted_insertionSort _ _⟩

theorem attemptsAfterCloses_eq (code : Nat) (hc : ¬(code = 1008 ∨ code = 1011)) :
    ∀ n, attemptsAfterCloses code n = min n 10 := by
  intro n
  induction n with
  | zero => rfl
  | succ n ih =>
    simp only [attemptsAfterCloses, onCloseStep, if_neg hc, ih]
    split <;> simp <;> omega

/-- C3: on non-terminal closes, the n-th consecutive close (1-indexed,
counter starting at 0) increments the attempt counter by one and schedules
a reconnect after exactly `min(1000 * 2^(n-1), 30000)` ms, for n up to 10;
every close after the 10th schedules nothing. -/
theorem reconnect_backoff_delays (code : Nat) (hc : code ≠ 1008) (hc2 : code ≠ 1011) :
    (∀ n : Nat, 1 ≤ n → n ≤ 10 →
        nthCloseDelay code n = some (min (1000 * 2 ^ (n - 1)) 30000) ∧
        attemptsAfterCloses code n = attemptsAfterCloses code (n - 1) + 1) ∧
    (∀ n : Nat, 10 < n → nthCloseDelay code n = none) := by
  have hcc : ¬(code = 1008 ∨ code = 1011) := by tauto
  constructor
  · intro n h1 h10
    have ha := attemptsAfterCloses_eq code hcc (n - 1)
    have hmin : min (n - 1) 10 = n - 1 := by omega
    constructor
    · unfold nthCloseDelay
      rw [ha, hmin]
      unfold onCloseStep
      rw [if_neg hcc, if_pos (by omega)]
    · rw [attemptsAfterCloses_eq code hcc n, ha]
      omega
  · intro n h10
    unfold nthCloseDelay
    rw [attemptsAfterCloses_eq code hcc (n - 1)]
    have hm : min (n - 1) 10 = 10 := by omega
    rw [hm]
    unfold onCloseStep
    rw [if_neg hcc, if_neg (by omega)]

/-- Witness for C3: with close code 1006, the 5th consecutive close
schedules `min(1000 * 2^4, 30000)` ms, the counter goes 4 → 5, and the
11th close schedules nothing. -/
theorem reconnect_backoff_delays_witness :
    nthCloseDelay 1006 5 = some (min (1000 * 2 ^ (5 - 1)) 30000) ∧
    attemptsAfterCloses 1006 5 = attemptsAfterCloses 1006 (5 - 1) + 1 ∧
    nthCloseDelay 1006 11 = none :=
  ⟨((reconnect_backoff_delays 1006 (by decide) (by decide)).1 5
      (by decide) (by decide)).1,
   ((reconnect_backoff_delays 1006 (by decide) (by decide)).1 5
      (by decide) (by decide)).2,
   (reconnect_backoff_delays 1006 (by decide) (by decide)).2 11 (by decide)⟩

/-- C4: a close with code 1008 or 1011 schedules no reconnect whatever the
current attempt counter, clears the connectivity flag, and logs the
terminal "won't attempt to reconnect" condition (the FailedTerminal state
visible as "will not retry"). -/
theorem terminal_close_no_reconnect (attempts code : Nat)
    (h : code = 1008 ∨ code = 1011) :
    (onCloseStep attempts code).scheduledDelay = none ∧
    (onCloseStep attempts code).wontRetryLogged = true ∧
    (onCloseStep attempts code).isConnected = false := by
  unfold onCloseStep
  rw [if_pos h]
  exact ⟨rfl, rfl, rfl⟩

/-- Witness for C4 at counter 7 and code 1008. -/
theorem terminal_close_no_reconnect_witness :
    (onCloseStep 7 1008).scheduledDelay = none ∧
    (onCloseStep 7 1008).wontRetryLogged = true ∧
    (onCloseStep 7 1008).isConnected = false :=
  terminal_close_no_reconnect 7 1008 (Or.inl rfl)

/-- C6 counterexample: `connect()` on a stale (CLOSING) socket issues the
close with the old `onclose` handler still attached — it is not
synchronously detached — and that handler, firing later with a
non-terminal code and a fresh counter, schedules a reconnect after
1000 ms.  So closing the stale connection CAN schedule a spurious
reconnect, refuting the claim at this concrete state. -/
theorem connect_keeps_onclose_cex :
    (connect ⟨some ⟨.CLOSING, true⟩, 0⟩).2
      = [.closeCalled true, .newSocketCreated] ∧
    (onCloseStep 0 1005).scheduledDelay = some 1000 := by
  decide

/-- C6 amended: `connect()` is a no-op when the socket is OPEN; when a
stale/closing socket exists it is closed first and a new socket created,
but its close handler is left in its prior attachment state (connect never
detaches it) — only the effect-cleanup path closes with the handler
detached and resets the attempt counter. -/
theorem connect_idempotent_behavior (m : ConnMgr) :
    (∀ s, m.socket = some s → s.readyState = .OPEN → connect m = (m, [])) ∧
    (∀ s, m.socket = some s → s.readyState ≠ .OPEN →
        (connect m).2 = [.closeCalled s.oncloseAttached, .newSocketCreated] ∧
        (connect m).1 = ⟨some ⟨.CONNECTING, true⟩, m.reconnectAttempts⟩) ∧
    ((effectCleanup m).1 = ⟨none, 0⟩ ∧
      ∀ b, ConnEffect.closeCalled b ∈ (effectCleanup m).2 → b = false) := by
  obtain ⟨sock, att⟩ := m
  refine ⟨?_, ?_, ?_⟩
  · rintro s rfl hopen
    simp [connect, hopen]
  · rintro s rfl hne
    simp [connect, hne]
  · cases sock <;> simp [effectCleanup]

/-- Witness for C6 amended: no-op on an OPEN socket; close of a CLOSED
stale socket whose handler was already detached stays detached. -/
theorem connect_idempotent_behavior_witness :
    connect ⟨some ⟨.OPEN, true⟩, 3⟩ = (⟨some ⟨.OPEN, true⟩, 3⟩, []) ∧
    (connect ⟨some ⟨.CLOSED, false⟩, 3⟩).2
      = [.closeCalled false, .newSocketCreated] :=
  ⟨(connect_idempotent_behavior _).1 ⟨.OPEN, true⟩ rfl rfl,
   ((connect_idempotent_behavior _).2.1 ⟨.CLOSED, false⟩ rfl (by decide)).1⟩

/-- C7 counterexample: with the socket not open, `sendDirect` to self takes
the not-connected control path — not an InvalidTarget-class failure —
though it still produces no outbound frame.  This refutes the claim's
unconditional "fails with InvalidTarget". -/
theorem sendDirect_notconnected_cex :
    (sendDirectMessage false (some "alice") "alice" "x").1 = .notConnectedErr ∧
    SendResult.isInvalidTarget
      (sendDirectMessage false (some "alice") "alice" "x").1 = false ∧
    (sendDirectMessage false (some "alice") "alice" "x").2 = [] := by
  decide

/-- C7 amended: when the socket is open, a `sendDirect` whose recipient
equals the local identity, or made with the identity unset (null or the
falsy empty string), returns through an InvalidTarget-class control path
(returned, never thrown: the function is total); and under those conditions
no outbound frame is produced whatever the connection state. -/
theorem sendDirect_invalid_target (sockOpen : Bool) (cur : Option String)
    (recipient content : String)
    (h : cur = none ∨ cur = some "" ∨ cur = some recipient) :
    (sockOpen = true →
        (sendDirectMessage sockOpen cur recipient content).1.isInvalidTarget = true) ∧
    (sendDirectMessage sockOpen cur recipient content).2 = [] := by
  rcases h with rfl | rfl | rfl <;> cases sockOpen <;>
    simp [sendDirectMessage, SendResult.isInvalidTarget] <;>
    by_cases hr : recipient = "" <;>
    simp [hr, SendResult.isInvalidTarget]

/-- Witness for C7 amended: a connected self-DM returns an InvalidTarget
failure and writes nothing. -/
theorem sendDirect_invalid_target_witness :
    (sendDirectMessage true (some "alice") "alice" "x").1.isInvalidTarget = true ∧
    (sendDirectMessage true (some "alice") "alice" "x").2 = [] :=
  ⟨(sendDirect_invalid_target true (some "alice") "alice" "x"
      (Or.inr (Or.inr rfl))).1 rfl,
   (sendDirect_invalid_target true (some "alice") "alice" "x"
      (Or.inr (Or.inr rfl))).2⟩

/-- C9 counterexample: a frame with an unrecognized type discriminator
falls through the dispatch with NO effect at all — it is dropped but not
logged (the catch-all logs only parse failures), refuting the claim's
"logs and drops" on the logging half. -/
theorem unknown_frame_silent_cex :
    handleFrame ⟨some "bob", false, "/", false⟩ emptyState .unknown
      = (emptyState, []) := rfl

/-- C9 amended: a malformed (unparseable) frame is logged and dropped; a
frame with an unrecognized type discriminator is silently dropped; in both
cases processing returns normally (the handler is total — nothing is
thrown past it) and the roster, global chat log, every direct-message log
and the unread counts are unchanged. -/
theorem malformed_unknown_dropped (env : Env) (st : ClientState) :
    handleFrame env st .malformed = (st, [.errLogged wsProcessErrMsg]) ∧
    handleFrame env st .unknown = (st, []) :=
  ⟨rfl, rfl⟩

/-- C5 counterexample: with the local identity unset, an inbound dm frame
from "alice" IS merged into the direct-message log keyed by the sender and
nothing is logged — refuting the claim that such a frame is logged as an
error and dropped from every channel log. -/
theorem dm_unset_identity_merged_cex :
    (handleFrame ⟨none, false, "/", false⟩ emptyState
        (.dm ⟨1, "alice", "hi", 5, .str "alice", .str "bob"⟩)).1.directMessages
      = [("alice", [⟨1, "alice", "hi", 5, .str "alice", .str "bob"⟩])] ∧
    (handleFrame ⟨none, false, "/", false⟩ emptyState
        (.dm ⟨1, "alice", "hi", 5, .str "alice", .str "bob"⟩)).2 = [] := by
  decide

/-- C5 amended: while the local identity is unset, an inbound dm frame
whose `from_user` is a non-empty string is merged into the log keyed by
that sender and — provided the frame's `target` is not JSON null (a null
target strictly equals the unset identity and would re-enter the unread
policy) — has no ledger or notification effect; a dm frame without a
usable `from_user` is logged as an error and dropped. -/
theorem dm_unset_identity_behavior (env : Env) (st : ClientState) (p : Payload)
    (hid : env.currentUsername = none) (htgt : p.target ≠ .jsNull) :
    (∀ s, p.from_user = .str s → s ≠ "" →
        handleFrame env st (.dm p) =
          ({ st with
               directMessages :=
                 dmSet st.directMessages s (liveAppend (dmGet st.directMessages s) p) },
           [])) ∧
    ((p.from_user = .undef ∨ p.from_user = .jsNull ∨ p.from_user = .str "") →
        handleFrame env st (.dm p) = (st, [.errLogged dmOtherUserErrMsg])) := by
  constructor
  · intro s hs hne
    have hje : jsEqOpt p.target env.currentUsername = false := by
      rw [hid]
      cases hpt : p.target with
      | undef => rfl
      | jsNull => exact absurd hpt htgt
      | str s' => rfl
    simp [handleFrame, hs, hne, hje]
  · rintro (h | h | h) <;> simp [handleFrame, h]

/-- Witness for C5 amended: identity unset, sender "carol", no target —
the frame is merged under "carol" with no effects. -/
theorem dm_unset_identity_behavior_witness :
    handleFrame ⟨none, true, "/x", true⟩ emptyState
        (.dm ⟨3, "carol", "hey", 7, .str "carol", .undef⟩) =
      ({ emptyState with
           directMessages :=
             dmSet emptyState.directMessages "carol"
               (liveAppend (dmGet emptyState.directMessages "carol")
                 ⟨3, "carol", "hey", 7, .str "carol", .undef⟩) }, []) :=
  (dm_unset_identity_behavior _ _ _ rfl (by decide)).1 "carol" rfl (by decide)

/-- C2: for an inbound dm whose target strictly equals the local identity:
when the sender's conversation is on the current path and the page is
foregrounded, the sender's unread entry is cleared to 0; otherwise it is
incremented by one and the notification routine is invoked with the
message — and the system notification is displayed only behind the
`document.hidden` guard, so it is suppressed whenever the page is
foregrounded. -/
theorem dm_unread_policy (env : Env) (st : ClientState) (p : Payload) (u s : String)
    (hcur : env.currentUsername = some u)
    (hfu : p.from_user = .str s) (hs : s ≠ "")
    (htgt : p.target = .str u) :
    (strIncludes env.currentPath ("/chat/dm/" ++ s) = true →
      env.documentHidden = false →
        (handleFrame env st (.dm p)).1.unreadCounts = unreadSet st.unreadCounts s 0 ∧
        (handleFrame env st (.dm p)).2 = [.ledgerClear s]) ∧
    (env.documentHidden = true ∨ strIncludes env.currentPath ("/chat/dm/" ++ s) = false →
        (handleFrame env st (.dm p)).1.unreadCounts
          = unreadSet st.unreadCounts s (unreadGet st.unreadCounts s + 1) ∧
        Effect.notifCall s p.content ∈ (handleFrame env st (.dm p)).2 ∧
        (env.documentHidden = false →
            ∀ a b, Effect.notifShown a b ∉ (handleFrame env st (.dm p)).2)) := by
  have hje : jsEqOpt p.target env.currentUsername = true := by
    rw [htgt, hcur]
    simp [jsEqOpt]
  constructor
  · intro hpath hvis
    have hcond : (env.documentHidden || !(isActiveChat env s)) = false := by
      simp [isActiveChat, hpath, hvis]
    simp [handleFrame, hfu, hs, hje, hcond]
  · intro hyp
    have hcond : (env.documentHidden || !(isActiveChat env s)) = true := by
      rcases hyp with h | h <;> simp [isActiveChat, h]
    refine ⟨?_, ?_, ?_⟩
    · simp [handleFrame, hfu, hs, hje, hcond, ledgerIncr]
    · simp [handleFrame, hfu, hs, hje, hcond]
    · intro hvis a b
      have hact : isActiveChat env s = false := by
        rw [hvis] at hcond
        simpa using hcond
      simp [handleFrame, hfu, hs, hje, hcond, hact, showNotification, hvis]

/-- Witness for C2: page hidden, dm from "alice" to the local user "bob" —
unread for "alice" becomes 1 and the notification routine is invoked. -/
theorem dm_unread_policy_witness :
    (handleFrame ⟨some "bob", true, "/", true⟩ emptyState
        (.dm ⟨2, "alice", "yo", 3, .str "alice", .str "bob"⟩)).1.unreadCounts
      = unreadSet emptyState.unreadCounts "alice"
          (unreadGet emptyState.unreadCounts "alice" + 1) ∧
    Effect.notifCall "alice" "yo" ∈
      (handleFrame ⟨some "bob", true, "/", true⟩ emptyState
        (.dm ⟨2, "alice", "yo", 3, .str "alice", .str "bob"⟩)).2 :=
  ⟨((dm_unread_policy _ _ _ "bob" "alice" rfl rfl (by decide) rfl).2
      (Or.inl rfl)).1,
   ((dm_unread_policy _ _ _ "bob" "alice" rfl rfl (by decide) rfl).2
      (Or.inl rfl)).2.1⟩

/-- C10: a dm_receipt frame never touches the unread ledger and never
raises a notification — every effect it emits is neither a ledger nor a
notification effect, even when the page is hidden — and when its target is
a non-empty string the payload is merged (dedup by id, sort by timestamp)
into the direct-message log keyed by that target, with no effects at all. -/
theorem dm_receipt_no_unread (env : Env) (st : ClientState) (p : Payload) :
    ((handleFrame env st (.dm_receipt p)).1.unreadCounts = st.unreadCounts ∧
      ∀ e ∈ (handleFrame env st (.dm_receipt p)).2,
        e.isLedger = false ∧ e.isNotif = false) ∧
    (∀ s, p.target = .str s → s ≠ "" →
        handleFrame env st (.dm_receipt p) =
          ({ st with
               directMessages :=
                 dmSet st.directMessages s (liveAppend (dmGet st.directMessages s) p) },
           [])) := by
  constructor
  · cases hpt : p.target with
    | str s =>
        by_cases hse : s = ""
        · subst hse
          simp [handleFrame, hpt, Effect.isLedger, Effect.isNotif]
        · simp [handleFrame, hpt, hse, Effect.isLedger, Effect.isNotif]
    | undef => simp [handleFrame, hpt, Effect.isLedger, Effect.isNotif]
    | jsNull => simp [handleFrame, hpt, Effect.isLedger, Effect.isNotif]
  · intro s hs hne
    simp [handleFrame, hs, hne]

/-- Witness for C10: a receipt for a dm the local user "bob" sent to
"alice", processed while the page is hidden, merges under "alice" and has
no effects. -/
theorem dm_receipt_no_unread_witness :
    handleFrame ⟨some "bob", true, "/", true⟩ emptyState
        (.dm_receipt ⟨4, "bob", "ok", 9, .undef, .str "alice"⟩) =
      ({ emptyState with
           directMessages :=
             dmSet emptyState.directMessages "alice"
               (liveAppend (dmGet emptyState.directMessages "alice")
                 ⟨4, "bob", "ok", 9, .undef, .str "alice"⟩) }, []) :=
  (dm_receipt_no_unread _ _ _).2 "alice" rfl (by decide)

end Torb
